import Mathlib

/-!
Verification development for the nestjs-jetstream transport layer.

The definitions below are a shallow embedding of the repository sources:
`src/common/connection.provider.ts`, `src/server/jetstream.strategy.ts`,
`src/server/providers/stream.provider.ts`, `src/server/providers/consumer.provider.ts`
and `src/server/jetstream-server.module.ts`. Asynchronous rx pipelines are
embedded as explicit result values plus traces of the effects they perform;
the JetStream manager is an abstract backend (a record of result functions),
so the theorems quantify over every possible broker behaviour.
-/

namespace NestjsJetstream

/-- Modelled from the spec: the `JetStreamKind` enum (`src/enum` is absent from
the tree). The naming scheme of the spec fixes its string values: events use
`ev`, commands use `cmd`; the README sample output and the in-tree client tests
show the same values. -/
inductive JetStreamKind
  | event
  | command
deriving DecidableEq, Repr

/-- The string value of a kind, as it appears in subjects and durable names. -/
def JetStreamKind.value : JetStreamKind → String
  | .event => "ev"
  | .command => "cmd"

/-- Modelled from the spec: the `ServiceType` enum
(`src/common/enum/service-type.enum.ts` is absent from the tree). Its string
values are fixed by the in-tree ConnectionProvider tests, which expect
connection names `test-service_producer` and `test-service_consumer`. -/
inductive ServiceType
  | producer
  | consumer
deriving DecidableEq, Repr

/-- The string value of a service type, used in the connection name. -/
def ServiceType.value : ServiceType → String
  | .producer => "producer"
  | .consumer => "consumer"

/-- A NATS error as the transport consumes it: the string `code` checked by
`ConnectionProvider.handleError`, the `message`, and the optional JetStream API
error code `err.api_error?.err_code` checked by the provisioning providers. -/
structure NatsError where
  code : String
  message : String
  apiErrCode : Option Nat
deriving DecidableEq, Repr

/-- The aspects of a live `NatsConnection` the embedded code observes: an
identity, whether it is already closed, and whether each teardown call
(`drain()`, `closed()`, `close()`) resolves or rejects. -/
structure NatsConnection where
  id : Nat
  isClosed : Bool
  drainOk : Bool
  closedOk : Bool
  closeOk : Bool
deriving DecidableEq, Repr

/-- Outcome of an rx observable that notifies at most once: it emits a value,
terminates with an error notification, or completes without emitting. -/
inductive ObsOutcome (α : Type)
  | emits (a : α)
  | fails (e : String)
  | completesEmpty
deriving DecidableEq, Repr

/-- `ConnectionProvider.handleError` (src/common/connection.provider.ts):
a `CONNECTION_REFUSED` error throws a `RuntimeException` built from the error
message — inside `catchError` a throw becomes an error notification — and any
other error returns `EMPTY`, which completes without emitting. -/
def ConnectionProvider.handleError (err : NatsError) : ObsOutcome NatsConnection :=
  if err.code = "CONNECTION_REFUSED" then
    .fails ("RuntimeException: " ++ err.message)
  else
    .completesEmpty

/-- The `nc$` pipeline of `ConnectionProvider.setupConnection` applied to the
result of the `connect` call: a successful connect emits the connection, a
failed connect is routed through `catchError(err => this.handleError(err))`. -/
def ConnectionProvider.ncPipeline (res : Except NatsError NatsConnection) :
    ObsOutcome NatsConnection :=
  match res with
  | .ok c => .emits c
  | .error e => ConnectionProvider.handleError e

/-- The teardown calls `gracefulShutdown` can issue on the connection. -/
inductive ShutdownAction
  | drain
  | waitClosed
  | forceClose
deriving DecidableEq, Repr

/-- A traced fallible effect: the final result together with the teardown calls
performed, in order. -/
abbrev ShutdownEff (α : Type) := Except String α × List ShutdownAction

/-- Sequencing of traced effects, mirroring rx `switchMap` on a single-shot
observable: the second effect runs only when the first succeeded. -/
def ShutdownEff.andThen {α β : Type} (x : ShutdownEff α) (f : α → ShutdownEff β) :
    ShutdownEff β :=
  match x with
  | (.ok a, t) => let y := f a; (y.1, t ++ y.2)
  | (.error e, t) => (.error e, t)

/-- rx `catchError` on traced effects: a success passes through, an error is
replaced by the handler effect. -/
def ShutdownEff.catchWith {α : Type} (x : ShutdownEff α) (h : String → ShutdownEff α) :
    ShutdownEff α :=
  match x with
  | (.ok a, t) => (.ok a, t)
  | (.error e, t) => let y := h e; (y.1, t ++ y.2)

/-- `nc.drain()` as a traced effect. -/
def drainCall (nc : NatsConnection) : ShutdownEff Unit :=
  (if nc.drainOk then .ok () else .error "drain failed", [.drain])

/-- `nc.closed()` (wait for confirmed close) as a traced effect. -/
def closedCall (nc : NatsConnection) : ShutdownEff Unit :=
  (if nc.closedOk then .ok () else .error "closed rejected", [.waitClosed])

/-- `nc.close()` (forced close) as a traced effect. -/
def closeCall (nc : NatsConnection) : ShutdownEff Unit :=
  (if nc.closeOk then .ok () else .error "close failed", [.forceClose])

/-- `ConnectionProvider.gracefulShutdown` applied to the connection that
`this.nc.pipe(take(1))` yields:
`iif(nc.isClosed, of(void 0), from(nc.drain()).pipe(switchMap(nc.closed()),
catchError(nc.close()), catchError(of(void 0))))`. -/
def ConnectionProvider.gracefulShutdown (nc : NatsConnection) : ShutdownEff Unit :=
  if nc.isClosed then (.ok (), [])
  else
    (((drainCall nc).andThen fun _ => closedCall nc).catchWith fun _ =>
        closeCall nc).catchWith fun _ => (.ok (), [])

/-- The caching state of `ConnectionProvider.setupConnection`: the
`shareReplay({bufferSize: 1, refCount: false})` buffers of `nc$` and `jsm$`,
plus how many times each underlying source (the `connect` call and
`c.jetstreamManager()`) has been subscribed. -/
structure CacheState where
  connectCalls : Nat
  ncCache : Option Nat
  jsmCalls : Nat
  jsmCache : Option Nat
deriving DecidableEq, Repr

/-- The fresh caching state a `ConnectionProvider` instance starts with. -/
def CacheState.init : CacheState :=
  { connectCalls := 0, ncCache := none, jsmCalls := 0, jsmCache := none }

/-- One subscription to `nc$`. Under `shareReplay {bufferSize := 1,
refCount := false}` an empty replay buffer subscribes the source — one
`connect` call, whose result is cached — and a full buffer replays the cached
connection without touching the source again. `mkConn n` is the connection the
n-th connect attempt would produce, so instance identity is observable. -/
def subscribeNc (mkConn : Nat → Nat) (s : CacheState) : Nat × CacheState :=
  match s.ncCache with
  | some c => (c, s)
  | none =>
      let c := mkConn s.connectCalls
      (c, { s with connectCalls := s.connectCalls + 1, ncCache := some c })

/-- One subscription to `jsm$`, which derives from `nc$` via
`switchMap(c => from(c.jetstreamManager()))` and is cached by the same
`shareReplay` configuration: an empty buffer first obtains the connection from
`nc$`, then creates the manager once and caches it. -/
def subscribeJsm (mkConn mkJsm : Nat → Nat) (s : CacheState) : Nat × CacheState :=
  match s.jsmCache with
  | some j => (j, s)
  | none =>
      let cs := subscribeNc mkConn s
      let j := mkJsm cs.1
      (j, { cs.2 with jsmCalls := cs.2.jsmCalls + 1, jsmCache := some j })

/-- An access to the connection provider: a subscription to `nc$` or to `jsm$`. -/
inductive CacheAccess
  | nc
  | jsm
deriving DecidableEq, Repr

/-- Running a sequence of accesses against one provider instance, collecting
the value each access observed. -/
def runAccesses (mkConn mkJsm : Nat → Nat) (s : CacheState) :
    List CacheAccess → CacheState × List (CacheAccess × Nat)
  | [] => (s, [])
  | a :: rest =>
      let vs := match a with
        | .nc => subscribeNc mkConn s
        | .jsm => subscribeJsm mkConn mkJsm s
      let out := runAccesses mkConn mkJsm vs.2 rest
      (out.1, (a, vs.1) :: out.2)

/-- Modelled from the spec: the JetStream error-code enum
(`src/server/enum` is absent from the tree). Only the two codes the providers
consult are needed; the stream and consumer not-found conditions named by the
spec carry the JetStream wire codes 10059 and 10014. -/
def JetStreamErrorCode.StreamNotFound : Nat := 10059

/-- Modelled from the spec: the consumer not-found JetStream error code, see
`JetStreamErrorCode.StreamNotFound`. -/
def JetStreamErrorCode.ConsumerNotFound : Nat := 10014

/-- The stream configuration as `StreamProvider.createForKind` assembles it:
representative persistence fields (stood in by `retention`, `storage`,
`maxMsgs`) merged from the base configuration and the kind overlay, plus the
`name`, `subjects` and `description` the provider sets itself. -/
structure StreamConfig where
  retention : String
  storage : String
  maxMsgs : Int
  name : String
  subjects : List String
  description : String
deriving DecidableEq, Repr

/-- A kind-specific overlay (`Partial<StreamConfig>` in `src/server/types`):
present fields override the base fields under TS object spread. -/
structure StreamConfigOverlay where
  retention : Option String := none
  storage : Option String := none
  maxMsgs : Option Int := none
deriving DecidableEq, Repr

/-- The shape of the `streamConfig` constant (`StreamConfigRecord` in
`src/server/types`): a base configuration shared by both kinds and one overlay
per kind. The constant itself lives in `src/server/const`, absent from the
tree, so the theorems quantify over every record. -/
structure StreamConfigRecord where
  base : StreamConfig
  event : StreamConfigOverlay
  command : StreamConfigOverlay

/-- The overlay `streamConfig[kind]` selects. -/
def StreamConfigRecord.overlayFor (rec : StreamConfigRecord) : JetStreamKind → StreamConfigOverlay
  | .event => rec.event
  | .command => rec.command

/-- `StreamProvider.getStreamName`: the name scheme
`{serviceName}_{kind}-stream`. -/
def StreamProvider.getStreamName (serviceName : String) (kind : JetStreamKind) : String :=
  serviceName ++ "_" ++ kind.value ++ "-stream"

/-- `StreamProvider.getSubjects`: the single captured subject pattern
`{serviceName}.{kind}.>`. -/
def StreamProvider.getSubjects (serviceName : String) (kind : JetStreamKind) : List String :=
  [serviceName ++ "." ++ kind.value ++ ".>"]

/-- The `config` local of `StreamProvider.createForKind`:
`{...streamConfig.base, ...streamConfig[kind], name, subjects, description}` —
object spread lets overlay fields override base fields, then the provider sets
the name, the subjects and the description. -/
def StreamProvider.mergedConfig (rec : StreamConfigRecord) (serviceName : String)
    (kind : JetStreamKind) : StreamConfig :=
  let ov := rec.overlayFor kind
  { retention := ov.retention.getD rec.base.retention
    storage := ov.storage.getD rec.base.storage
    maxMsgs := ov.maxMsgs.getD rec.base.maxMsgs
    name := StreamProvider.getStreamName serviceName kind
    subjects := StreamProvider.getSubjects serviceName kind
    description := "JetStream stream for " ++ serviceName ++ " " ++ kind.value ++ " messages" }

/-- Opaque broker-side stream metadata returned by info, update and add. -/
structure StreamInfo where
  raw : Nat
deriving DecidableEq, Repr

/-- The JetStream manager as the stream provider sees it: the result each
manager call would return. The theorems quantify over every backend. -/
structure StreamBackend where
  infoRes : String → Except NatsError StreamInfo
  updateRes : String → StreamConfig → Except NatsError StreamInfo
  addRes : StreamConfig → Except NatsError StreamInfo

/-- One JetStream manager call issued by the stream provider. There is no
delete call: `StreamProvider` never deletes a stream. -/
inductive JsmStreamCall
  | infoCall (streamName : String)
  | updateCall (streamName : String) (config : StreamConfig)
  | addCall (config : StreamConfig)
deriving DecidableEq, Repr

/-- `StreamProvider.createForKind`: the pipeline
`this.info(config.name).pipe(switchMap(() => this.update(config.name, config)),
catchError(err => err.api_error?.err_code == StreamNotFound ? this.new(config) : throw err))`
unfolded over an abstract manager backend, with the trace of manager calls.
The `catchError` covers both the info query and the update. -/
def StreamProvider.createForKind (b : StreamBackend) (rec : StreamConfigRecord)
    (serviceName : String) (kind : JetStreamKind) :
    Except NatsError StreamInfo × List JsmStreamCall :=
  let config := StreamProvider.mergedConfig rec serviceName kind
  match b.infoRes config.name with
  | .ok _ =>
      match b.updateRes config.name config with
      | .ok si => (.ok si, [.infoCall config.name, .updateCall config.name config])
      | .error e =>
          if e.apiErrCode = some JetStreamErrorCode.StreamNotFound then
            (b.addRes config,
              [.infoCall config.name, .updateCall config.name config, .addCall config])
          else
            (.error e, [.infoCall config.name, .updateCall config.name config])
  | .error e =>
      if e.apiErrCode = some JetStreamErrorCode.StreamNotFound then
        (b.addRes config, [.infoCall config.name, .addCall config])
      else
        (.error e, [.infoCall config.name])

/-- `StreamProvider.create`: `forkJoin([createForKind(Event), createForKind(Command)])`
— the ensure operation runs for both kinds. -/
def StreamProvider.create (b : StreamBackend) (rec : StreamConfigRecord) (serviceName : String) :
    (Except NatsError StreamInfo × List JsmStreamCall) ×
    (Except NatsError StreamInfo × List JsmStreamCall) :=
  (StreamProvider.createForKind b rec serviceName .event,
   StreamProvider.createForKind b rec serviceName .command)

/-- Opaque broker-side consumer metadata. -/
structure ConsumerInfo where
  raw : Nat
deriving DecidableEq, Repr

/-- The consumer configuration the provider passes to the manager: the durable
name plus an opaque remainder standing for the kind-specific policy block. -/
structure ConsumerConfig where
  durableName : Option String
  rest : Nat
deriving DecidableEq, Repr

/-- The JetStream manager as the consumer provider sees it:
`jsm.consumers.info(stream, durable)` and `jsm.consumers.add(stream, config)`. -/
structure ConsumerBackend where
  infoRes : String → String → Except NatsError ConsumerInfo
  addRes : String → ConsumerConfig → Except NatsError ConsumerInfo

/-- One JetStream manager call issued by the consumer provider. -/
inductive JsmConsumerCall
  | infoCall (streamName durable : String)
  | addCall (streamName : String) (config : ConsumerConfig)
deriving DecidableEq, Repr

/-- `ConsumerProvider.createForKind`: with
`streamName = streamProvider.getStreamName(kind)` and
`config = consumerConfig[kind](options.name, kind)` (given here as `cfgFn`
since the constant lives in the absent `src/server/const`), the pipeline
queries `jsm.consumers.info(streamName, config.durable_name ?? '')`; on
success the existing info is returned, a `ConsumerNotFound` error triggers
`jsm.consumers.add(streamName, config)`, and any other error is rethrown. -/
def ConsumerProvider.createForKind (b : ConsumerBackend)
    (cfgFn : JetStreamKind → String → ConsumerConfig) (serviceName : String)
    (kind : JetStreamKind) : Except NatsError ConsumerInfo × List JsmConsumerCall :=
  let streamName := StreamProvider.getStreamName serviceName kind
  let config := cfgFn kind serviceName
  let durable := config.durableName.getD ""
  match b.infoRes streamName durable with
  | .ok ci => (.ok ci, [.infoCall streamName durable])
  | .error e =>
      if e.apiErrCode = some JetStreamErrorCode.ConsumerNotFound then
        (b.addRes streamName config,
          [.infoCall streamName durable, .addCall streamName config])
      else
        (.error e, [.infoCall streamName durable])

/-- Entries of the provisioning trace produced by `JetstreamStrategy.listen`.
Runs are numbered 1, 2, …: run 1 is the initial `startWith(void 0)` trigger,
each reconnect notification starts the next run. `ensureStreams r` records the
subscription of `streamProvider.create()` for run `r` (the forkJoin over both
kinds begins), `streamsCompleted r` its completion, `ensureConsumers r` the
subscription of `consumerProvider.create()`, `consumersCompleted r` its
completion and `ready r` the `tap(done)` readiness-callback invocation. -/
inductive TEntry
  | ensureStreams (r : Nat)
  | streamsCompleted (r : Nat)
  | ensureConsumers (r : Nat)
  | consumersCompleted (r : Nat)
  | ready (r : Nat)
deriving DecidableEq, Repr

/-- External events driving the `listen` pipeline: a reconnect notification
(`this.reconnect$` fires, fed by `onModuleInit`'s `Events.Reconnect` handler),
or the asynchronous completion of run `r`'s stream or consumer provisioning. -/
inductive LEvent
  | reconnect
  | streamsDone (r : Nat)
  | consumersDone (r : Nat)
deriving DecidableEq, Repr

/-- The state of the pipeline
`reconnect$.pipe(startWith(void 0), switchMap(streamProvider.create()),
switchMap(consumerProvider.create()), tap(done))`. `aRun` is the run whose
stream-provisioning observable the first `switchMap` currently holds and
`sActive` whether that observable is still in flight; `bRun` is the run whose
consumer-provisioning observable the second `switchMap` currently holds, if
any. `trace` is everything observed so far. -/
structure LState where
  aRun : Nat
  sActive : Bool
  bRun : Option Nat
  trace : List TEntry
deriving DecidableEq, Repr

/-- One step of the `listen` pipeline. A reconnect makes the first `switchMap`
drop its in-flight stream provisioning and subscribe a fresh one for the next
run — note it does not touch the second `switchMap`, whose consumer
provisioning keeps running until the new stream provisioning emits. A stream
completion is delivered only for the currently subscribed run and switches the
second `switchMap` onto that run's consumer provisioning. A consumer
completion is delivered only for the run the second `switchMap` holds and
fires the readiness callback. -/
def LState.step (s : LState) : LEvent → LState
  | .reconnect =>
      { aRun := s.aRun + 1, sActive := true, bRun := s.bRun,
        trace := s.trace ++ [.ensureStreams (s.aRun + 1)] }
  | .streamsDone r =>
      if r = s.aRun ∧ s.sActive = true then
        { aRun := s.aRun, sActive := false, bRun := some r,
          trace := s.trace ++ [.streamsCompleted r, .ensureConsumers r] }
      else s
  | .consumersDone r =>
      if s.bRun = some r then
        { aRun := s.aRun, sActive := s.sActive, bRun := none,
          trace := s.trace ++ [.consumersCompleted r, .ready r] }
      else s

/-- The state right after `listen(done)` subscribes the pipeline: run 1 is
triggered immediately by `startWith(void 0)`. -/
def LState.init : LState :=
  { aRun := 1, sActive := true, bRun := none, trace := [.ensureStreams 1] }

/-- `JetstreamStrategy.listen` driven by a sequence of external events. -/
def JetstreamStrategy.listen (events : List LEvent) : LState :=
  events.foldl LState.step LState.init

/-- The reachability invariant of the `listen` pipeline, proved below for
every event sequence. -/
structure ListenInv (s : LState) : Prop where
  nodup : s.trace.Nodup
  pos : 0 < s.aRun
  streamsAll : ∀ r, 0 < r → r ≤ s.aRun → TEntry.ensureStreams r ∈ s.trace
  consChain : ∀ r, TEntry.ensureConsumers r ∈ s.trace →
    [TEntry.ensureStreams r, TEntry.streamsCompleted r, TEntry.ensureConsumers r].Sublist s.trace
  readyChain : ∀ r, TEntry.ready r ∈ s.trace →
    [TEntry.ensureStreams r, TEntry.streamsCompleted r, TEntry.ensureConsumers r,
      TEntry.consumersCompleted r, TEntry.ready r].Sublist s.trace
  ccChain : ∀ r, TEntry.consumersCompleted r ∈ s.trace → TEntry.ensureConsumers r ∈ s.trace
  bChain : ∀ r, s.bRun = some r →
    [TEntry.ensureStreams r, TEntry.streamsCompleted r, TEntry.ensureConsumers r].Sublist s.trace
  bDone : ∀ r, s.bRun = some r →
    TEntry.consumersCompleted r ∉ s.trace ∧ TEntry.ready r ∉ s.trace
  bLe : ∀ r, s.bRun = some r → r ≤ s.aRun
  activeFresh : s.sActive = true →
    TEntry.streamsCompleted s.aRun ∉ s.trace ∧ TEntry.ensureConsumers s.aRun ∉ s.trace ∧
      s.bRun ≠ some s.aRun
  futureFresh : ∀ r, s.aRun < r →
    TEntry.ensureStreams r ∉ s.trace ∧ TEntry.streamsCompleted r ∉ s.trace ∧
      TEntry.ensureConsumers r ∉ s.trace ∧ TEntry.consumersCompleted r ∉ s.trace ∧
      TEntry.ready r ∉ s.trace

/-- Modelled from the spec: `JetstreamClientProxy.buildSubject` (the client
proxy source is absent from the tree; its in-tree tests pin
`test-service.ev.user.created` and `test-service.cmd.user.get`). The publish
subject is `{service}.{kind}.{pattern}`. -/
def JetstreamClientProxy.buildSubject (serviceName : String) (kind : JetStreamKind)
    (pattern : String) : String :=
  serviceName ++ "." ++ kind.value ++ "." ++ pattern

/-- Modelled from the spec: the deterministic durable consumer name
`{service}_{kind}-consumer` (the `consumerConfig` constant lives in the absent
`src/server/const`). -/
def ConsumerProvider.getConsumerName (serviceName : String) (kind : JetStreamKind) : String :=
  serviceName ++ "_" ++ kind.value ++ "-consumer"

/-- The packet a pending command's callback receives, `{err, response,
isDisposed}`; its shape is pinned by the in-tree client-proxy tests. -/
structure CallbackPacket (α : Type) where
  err : Option String
  response : Option α
  isDisposed : Bool
deriving DecidableEq, Repr

/-- What `routeReply` does with one inbox message: silently ignore it (no
CorrelationId header), drop it (header without a matching PendingRequest), or
invoke the matched callback handle exactly once with a packet. -/
inductive RouteDisposition (α : Type)
  | ignoredNoHeader
  | droppedNoMatch (cid : String)
  | delivered (cid : String) (cb : Nat) (packet : CallbackPacket α)
deriving DecidableEq, Repr

/-- An inbox reply message as `routeReply` reads it:
`msg.headers?.get(CorrelationId)` and the payload bytes. -/
structure ReplyMsg where
  corrId : Option String
  data : List Nat
deriving DecidableEq, Repr

/-- The `pendingMessages` map: correlation id to callback handle. Keys are
unique (it embeds a `Map`). -/
abbrev PendingMap := List (String × Nat)

/-- `pendingMessages.get(cid)`. -/
def findCb : PendingMap → String → Option Nat
  | [], _ => none
  | (k, v) :: rest, cid => if k = cid then some v else findCb rest cid

/-- `pendingMessages.delete(cid)`: removes the binding of `cid`, if any. -/
def removePending : PendingMap → String → PendingMap
  | [], _ => []
  | (k, v) :: rest, cid => if k = cid then rest else (k, v) :: removePending rest cid

/-- Modelled from the spec: `JetstreamClientProxy.routeReply` (the client proxy
source is absent from the tree; the behaviour here follows the spec's reply
routing rules, which the in-tree client-proxy tests corroborate). A message
without a CorrelationId header is silently ignored; a header without a matching
PendingRequest is logged and dropped; a match decodes the payload and invokes
the callback once — `{err: null, response: decoded, isDisposed: true}` on
decode success, `{err: message, response: null, isDisposed: true}` on decode
failure — and removes the PendingRequest. -/
def JetstreamClientProxy.routeReply {α : Type} (decode : List Nat → Option α)
    (pending : PendingMap) (msg : ReplyMsg) : RouteDisposition α × PendingMap :=
  match msg.corrId with
  | none => (.ignoredNoHeader, pending)
  | some cid =>
      match findCb pending cid with
      | none => (.droppedNoMatch cid, pending)
      | some cb =>
          let packet : CallbackPacket α :=
            match decode msg.data with
            | some v => { err := none, response := some v, isDisposed := true }
            | none => { err := some "decode failure", response := none, isDisposed := true }
          (.delivered cid cb packet, removePending pending cid)

/-- The caller-facing options of `JetstreamServerModule.forRoot`
(`Omit<IJetstreamTransportOptions, 'serviceType'>`). -/
structure OptionsInput where
  name : String
  servers : List String
deriving DecidableEq, Repr

/-- `IJetstreamTransportOptions` as the providers receive them. -/
structure TransportOptions where
  name : String
  servers : List String
  serviceType : ServiceType
deriving DecidableEq, Repr

/-- Modelled from the spec: `getJetStreamTransportToken`
(`src/common/helpers` is absent from the tree) — the DI token exported for a
service name, an injection of the caller-supplied name. -/
def getJetStreamTransportToken (name : String) : String :=
  "JETSTREAM_TRANSPORT__" ++ name

/-- The options value `forRoot` registers under the options token — the value
injected into every provider of the module: the caller options with `name`
rewritten to `{name}__microservice` and `serviceType` set to Consumer. -/
def JetstreamServerModule.forRootOptionsValue (o : OptionsInput) : TransportOptions :=
  { name := o.name ++ "__microservice", servers := o.servers, serviceType := .consumer }

/-- The options value produced by each branch of
`JetstreamServerModule.createAsyncProviders` (useFactory, useExisting and
useClass all spread the produced config and then rewrite): the produced
config's fields with `name` rewritten from the module-level async options name
and `serviceType` set to Consumer. -/
def JetstreamServerModule.asyncOptionsValue (moduleName : String) (produced : OptionsInput) :
    TransportOptions :=
  { name := moduleName ++ "__microservice", servers := produced.servers,
    serviceType := .consumer }

/-- The observable shape of the dynamic module `forRoot` returns: the options
value behind the options token and the exported transport token. -/
structure ModuleShape where
  optionsValue : TransportOptions
  exportToken : String
deriving DecidableEq, Repr

/-- `JetstreamServerModule.forRoot`. -/
def JetstreamServerModule.forRoot (o : OptionsInput) : ModuleShape :=
  { optionsValue := JetstreamServerModule.forRootOptionsValue o,
    exportToken := getJetStreamTransportToken o.name }

/-- The NATS connection name `ConnectionProvider.setupConnection` uses:
`{options.name}_{options.serviceType}`. -/
def connectionName (opts : TransportOptions) : String :=
  opts.name ++ "_" ++ opts.serviceType.value

/-- A Prop-valued description of the reachable caching states of one
`ConnectionProvider` instance: either nothing has been subscribed yet, or the
single connect result is cached (with the manager either not yet derived or
derived exactly once from that same connection). -/
def CacheState.wellCached (mkConn mkJsm : Nat → Nat) (s : CacheState) : Prop :=
  (s.ncCache = none ∧ s.connectCalls = 0 ∧ s.jsmCache = none ∧ s.jsmCalls = 0) ∨
  (s.ncCache = some (mkConn 0) ∧ s.connectCalls = 1 ∧
    ((s.jsmCache = none ∧ s.jsmCalls = 0) ∨
      (s.jsmCache = some (mkJsm (mkConn 0)) ∧ s.jsmCalls = 1)))

end NestjsJetstream

namespace NestjsJetstream

/-- C1: a connect failure with code `CONNECTION_REFUSED` is propagated to the
caller of the connection accessor as a terminal error, and any other connect
failure surfaces as an observable that completes without emitting (no
connection yet), leaving retries to an outer policy
(`ConnectionProvider.handleError` via the `nc$` pipeline). -/
theorem connectionProvider_connect_error_classification
    (res : Except NatsError NatsConnection) :
    (∀ c, res = .ok c → ConnectionProvider.ncPipeline res = .emits c) ∧
    (∀ e, res = .error e → e.code = "CONNECTION_REFUSED" →
      ConnectionProvider.ncPipeline res = .fails ("RuntimeException: " ++ e.message)) ∧
    (∀ e, res = .error e → e.code ≠ "CONNECTION_REFUSED" →
      ConnectionProvider.ncPipeline res = .completesEmpty) := by
  refine ⟨fun c h => ?_, fun e h hc => ?_, fun e h hc => ?_⟩ <;> subst h
  · rfl
  · simp [ConnectionProvider.ncPipeline, ConnectionProvider.handleError, hc]
  · simp [ConnectionProvider.ncPipeline, ConnectionProvider.handleError, hc]

/-- C2: `gracefulShutdown` never propagates an error and always completes: an
already-closed connection is a no-op; otherwise it drains and waits for close;
a drain or close-wait failure falls back to a forced close; and a forced-close
failure is swallowed, the shutdown still completing. -/
theorem connectionProvider_gracefulShutdown_total (nc : NatsConnection) :
    (ConnectionProvider.gracefulShutdown nc).1 = .ok () ∧
    (nc.isClosed = true → (ConnectionProvider.gracefulShutdown nc).2 = []) ∧
    (nc.isClosed = false → nc.drainOk = true → nc.closedOk = true →
      (ConnectionProvider.gracefulShutdown nc).2 = [.drain, .waitClosed]) ∧
    (nc.isClosed = false → nc.drainOk = false →
      (ConnectionProvider.gracefulShutdown nc).2 = [.drain, .forceClose]) ∧
    (nc.isClosed = false → nc.drainOk = true → nc.closedOk = false →
      (ConnectionProvider.gracefulShutdown nc).2 = [.drain, .waitClosed, .forceClose]) := by
  obtain ⟨i, c, d, cl, co⟩ := nc
  cases c <;> cases d <;> cases cl <;> cases co <;>
    simp [ConnectionProvider.gracefulShutdown, drainCall, closedCall, closeCall,
      ShutdownEff.andThen, ShutdownEff.catchWith]

/-- C7: the computed broker names follow the fixed scheme — publish subjects
`{service}.ev.{pattern}` and `{service}.cmd.{pattern}`, stream names
`{service}_ev-stream` and `{service}_cmd-stream`, captured subject patterns
`{service}.ev.>` and `{service}.cmd.>`, durable consumer names
`{service}_ev-consumer` and `{service}_cmd-consumer`. -/
theorem broker_naming_scheme (service pattern : String) :
    JetstreamClientProxy.buildSubject service .event pattern = service ++ ".ev." ++ pattern ∧
    JetstreamClientProxy.buildSubject service .command pattern = service ++ ".cmd." ++ pattern ∧
    StreamProvider.getStreamName service .event = service ++ "_ev-stream" ∧
    StreamProvider.getStreamName service .command = service ++ "_cmd-stream" ∧
    StreamProvider.getSubjects service .event = [service ++ ".ev.>"] ∧
    StreamProvider.getSubjects service .command = [service ++ ".cmd.>"] ∧
    ConsumerProvider.getConsumerName service .event = service ++ "_ev-consumer" ∧
    ConsumerProvider.getConsumerName service .command = service ++ "_cmd-consumer" := by
  refine ⟨?_, ?_, ?_, ?_, ?_, ?_, ?_, ?_⟩ <;>
    simp [JetstreamClientProxy.buildSubject, StreamProvider.getStreamName,
      StreamProvider.getSubjects, ConsumerProvider.getConsumerName, JetStreamKind.value,
      String.append_assoc]

/-- C10: `forRoot` (and the async variants, via `asyncOptionsValue`) rewrite
the injected transport options to name `{N}__microservice` with service type
Consumer, so every broker-visible name (stream names, subject patterns,
consumer names, connection name) derives from `{N}__microservice`, while the
module's exported transport token is still derived from the original `N`. -/
theorem serverModule_name_rewriting (o produced : OptionsInput) :
    (JetstreamServerModule.forRoot o).optionsValue.name = o.name ++ "__microservice" ∧
    (JetstreamServerModule.forRoot o).optionsValue.serviceType = .consumer ∧
    (JetstreamServerModule.forRoot o).optionsValue.servers = o.servers ∧
    (JetstreamServerModule.forRoot o).exportToken = getJetStreamTransportToken o.name ∧
    JetstreamServerModule.asyncOptionsValue o.name produced =
      { name := o.name ++ "__microservice", servers := produced.servers,
        serviceType := .consumer } ∧
    StreamProvider.getStreamName (JetstreamServerModule.forRoot o).optionsValue.name .event =
      o.name ++ "__microservice_ev-stream" ∧
    StreamProvider.getStreamName (JetstreamServerModule.forRoot o).optionsValue.name .command =
      o.name ++ "__microservice_cmd-stream" ∧
    StreamProvider.getSubjects (JetstreamServerModule.forRoot o).optionsValue.name .event =
      [o.name ++ "__microservice.ev.>"] ∧
    StreamProvider.getSubjects (JetstreamServerModule.forRoot o).optionsValue.name .command =
      [o.name ++ "__microservice.cmd.>"] ∧
    ConsumerProvider.getConsumerName (JetstreamServerModule.forRoot o).optionsValue.name .event =
      o.name ++ "__microservice_ev-consumer" ∧
    ConsumerProvider.getConsumerName
        (JetstreamServerModule.forRoot o).optionsValue.name .command =
      o.name ++ "__microservice_cmd-consumer" ∧
    connectionName (JetstreamServerModule.forRoot o).optionsValue =
      o.name ++ "__microservice_consumer" := by
  refine ⟨rfl, rfl, rfl, rfl, rfl, ?_, ?_, ?_, ?_, ?_, ?_, ?_⟩ <;>
    simp [JetstreamServerModule.forRoot, JetstreamServerModule.forRootOptionsValue,
      StreamProvider.getStreamName, StreamProvider.getSubjects,
      ConsumerProvider.getConsumerName, connectionName, ServiceType.value,
      JetStreamKind.value, String.append_assoc]

/-- C5: the stream ensure operation queries stream info first; a
`StreamNotFound` failure leads to creation with the merged configuration; an
existing stream is updated with that same configuration and the updated info
returned; every other error — from the query or from the update (e.g. a
disallowed configuration transition) — propagates unchanged, and in those
cases no stream is created (the call type has no delete at all, so no
delete-and-recreate can occur). -/
theorem streamProvider_ensure_classification (b : StreamBackend) (rec : StreamConfigRecord)
    (sn : String) (kind : JetStreamKind) :
    ((StreamProvider.createForKind b rec sn kind).2.head? =
      some (.infoCall (StreamProvider.mergedConfig rec sn kind).name)) ∧
    (∀ e, b.infoRes (StreamProvider.mergedConfig rec sn kind).name = .error e →
      e.apiErrCode = some JetStreamErrorCode.StreamNotFound →
      StreamProvider.createForKind b rec sn kind =
        (b.addRes (StreamProvider.mergedConfig rec sn kind),
          [.infoCall (StreamProvider.mergedConfig rec sn kind).name,
            .addCall (StreamProvider.mergedConfig rec sn kind)])) ∧
    (∀ e, b.infoRes (StreamProvider.mergedConfig rec sn kind).name = .error e →
      e.apiErrCode ≠ some JetStreamErrorCode.StreamNotFound →
      StreamProvider.createForKind b rec sn kind =
        (.error e, [.infoCall (StreamProvider.mergedConfig rec sn kind).name])) ∧
    (∀ si1 si2, b.infoRes (StreamProvider.mergedConfig rec sn kind).name = .ok si1 →
      b.updateRes (StreamProvider.mergedConfig rec sn kind).name
          (StreamProvider.mergedConfig rec sn kind) = .ok si2 →
      StreamProvider.createForKind b rec sn kind =
        (.ok si2, [.infoCall (StreamProvider.mergedConfig rec sn kind).name,
          .updateCall (StreamProvider.mergedConfig rec sn kind).name
            (StreamProvider.mergedConfig rec sn kind)])) ∧
    (∀ si1 e, b.infoRes (StreamProvider.mergedConfig rec sn kind).name = .ok si1 →
      b.updateRes (StreamProvider.mergedConfig rec sn kind).name
          (StreamProvider.mergedConfig rec sn kind) = .error e →
      e.apiErrCode ≠ some JetStreamErrorCode.StreamNotFound →
      StreamProvider.createForKind b rec sn kind =
        (.error e, [.infoCall (StreamProvider.mergedConfig rec sn kind).name,
          .updateCall (StreamProvider.mergedConfig rec sn kind).name
            (StreamProvider.mergedConfig rec sn kind)])) ∧
    (∀ si1 e, b.infoRes (StreamProvider.mergedConfig rec sn kind).name = .ok si1 →
      b.updateRes (StreamProvider.mergedConfig rec sn kind).name
          (StreamProvider.mergedConfig rec sn kind) = .error e →
      e.apiErrCode = some JetStreamErrorCode.StreamNotFound →
      StreamProvider.createForKind b rec sn kind =
        (b.addRes (StreamProvider.mergedConfig rec sn kind),
          [.infoCall (StreamProvider.mergedConfig rec sn kind).name,
            .updateCall (StreamProvider.mergedConfig rec sn kind).name
              (StreamProvider.mergedConfig rec sn kind),
            .addCall (StreamProvider.mergedConfig rec sn kind)])) := by
  refine ⟨?_, fun e h hc => ?_, fun e h hc => ?_, fun si1 si2 h hu => ?_,
    fun si1 e h hu hc => ?_, fun si1 e h hu hc => ?_⟩
  · rcases hinfo : b.infoRes (StreamProvider.mergedConfig rec sn kind).name with e | si
    · by_cases hc : e.apiErrCode = some JetStreamErrorCode.StreamNotFound <;>
        simp [StreamProvider.createForKind, hinfo, hc]
    · rcases hup : b.updateRes (StreamProvider.mergedConfig rec sn kind).name
          (StreamProvider.mergedConfig rec sn kind) with e | si2
      · by_cases hc : e.apiErrCode = some JetStreamErrorCode.StreamNotFound <;>
          simp [StreamProvider.createForKind, hinfo, hup, hc]
      · simp [StreamProvider.createForKind, hinfo, hup]
  · simp [StreamProvider.createForKind, h, hc]
  · simp [StreamProvider.createForKind, h, hc]
  · simp [StreamProvider.createForKind, h, hu]
  · simp [StreamProvider.createForKind, h, hu, hc]
  · simp [StreamProvider.createForKind, h, hu, hc]

/-- C6: the consumer ensure operation queries consumer info by the configured
durable name on the kind's stream; if and only if the query fails with
`ConsumerNotFound` it creates the consumer with the kind-specific
configuration; an existing consumer's info is returned unchanged with no add
call; any other query error propagates unchanged with no add call. -/
theorem consumerProvider_ensure_classification (b : ConsumerBackend)
    (cfgFn : JetStreamKind → String → ConsumerConfig) (sn : String) (kind : JetStreamKind) :
    (∀ ci, b.infoRes (StreamProvider.getStreamName sn kind)
        ((cfgFn kind sn).durableName.getD "") = .ok ci →
      ConsumerProvider.createForKind b cfgFn sn kind =
        (.ok ci, [.infoCall (StreamProvider.getStreamName sn kind)
          ((cfgFn kind sn).durableName.getD "")])) ∧
    (∀ e, b.infoRes (StreamProvider.getStreamName sn kind)
        ((cfgFn kind sn).durableName.getD "") = .error e →
      e.apiErrCode = some JetStreamErrorCode.ConsumerNotFound →
      ConsumerProvider.createForKind b cfgFn sn kind =
        (b.addRes (StreamProvider.getStreamName sn kind) (cfgFn kind sn),
          [.infoCall (StreamProvider.getStreamName sn kind)
            ((cfgFn kind sn).durableName.getD ""),
          .addCall (StreamProvider.getStreamName sn kind) (cfgFn kind sn)])) ∧
    (∀ e, b.infoRes (StreamProvider.getStreamName sn kind)
        ((cfgFn kind sn).durableName.getD "") = .error e →
      e.apiErrCode ≠ some JetStreamErrorCode.ConsumerNotFound →
      ConsumerProvider.createForKind b cfgFn sn kind =
        (.error e, [.infoCall (StreamProvider.getStreamName sn kind)
          ((cfgFn kind sn).durableName.getD "")])) := by
  refine ⟨fun ci h => ?_, fun e h hc => ?_, fun e h hc => ?_⟩
  · simp [ConsumerProvider.createForKind, h]
  · simp [ConsumerProvider.createForKind, h, hc]
  · simp [ConsumerProvider.createForKind, h, hc]

/-- A correlation id bound nowhere in the map is not found. -/
theorem findCb_eq_none_of_not_mem (m : PendingMap) (cid : String)
    (h : cid ∉ m.map Prod.fst) : findCb m cid = none := by
  induction m with
  | nil => rfl
  | cons p rest ih =>
      obtain ⟨k, v⟩ := p
      simp only [List.map_cons, List.mem_cons, not_or] at h
      have hk : ¬ k = cid := fun hkk => h.1 hkk.symm
      simp only [findCb, if_neg hk]
      exact ih h.2

/-- With unique keys, deleting a correlation id leaves no binding for it. -/
theorem findCb_removePending_self (m : PendingMap) (cid : String)
    (h : (m.map Prod.fst).Nodup) : findCb (removePending m cid) cid = none := by
  induction m with
  | nil => rfl
  | cons p rest ih =>
      obtain ⟨k, v⟩ := p
      simp only [List.map_cons, List.nodup_cons] at h
      by_cases hk : k = cid
      · subst hk
        simp only [removePending, if_pos rfl]
        exact findCb_eq_none_of_not_mem rest k h.1
      · simp only [removePending, if_neg hk, findCb, if_neg hk]
        exact ih h.2

/-- Deleting a bound correlation id removes exactly one entry. -/
theorem removePending_length (m : PendingMap) (cid : String) (cb : Nat)
    (h : findCb m cid = some cb) : (removePending m cid).length + 1 = m.length := by
  induction m with
  | nil => simp [findCb] at h
  | cons p rest ih =>
      obtain ⟨k, v⟩ := p
      by_cases hk : k = cid
      · simp [removePending, if_pos hk]
      · simp only [findCb, if_neg hk] at h
        simp [removePending, if_neg hk, ih h]

/-- C8: reply routing on the inbox — a message without a CorrelationId header
is silently ignored; a header with no matching PendingRequest is dropped; a
match invokes the registered callback exactly once, with the decoded payload
and the disposed flag on decode success or a failure result and the disposed
flag on decode failure, and in both cases removes the PendingRequest entry
exactly once (afterwards the id is no longer bound and the map shrank by
exactly one entry). -/
theorem clientProxy_routeReply_classification {α : Type} (decode : List Nat → Option α)
    (pending : PendingMap) (msg : ReplyMsg) (hkeys : (pending.map Prod.fst).Nodup) :
    (msg.corrId = none →
      JetstreamClientProxy.routeReply decode pending msg = (.ignoredNoHeader, pending)) ∧
    (∀ cid, msg.corrId = some cid → findCb pending cid = none →
      JetstreamClientProxy.routeReply decode pending msg = (.droppedNoMatch cid, pending)) ∧
    (∀ cid cb, msg.corrId = some cid → findCb pending cid = some cb →
      (∀ v, decode msg.data = some v →
        JetstreamClientProxy.routeReply decode pending msg =
          (.delivered cid cb { err := none, response := some v, isDisposed := true },
            removePending pending cid)) ∧
      (decode msg.data = none →
        JetstreamClientProxy.routeReply decode pending msg =
          (.delivered cid cb
              { err := some "decode failure", response := none, isDisposed := true },
            removePending pending cid)) ∧
      findCb (removePending pending cid) cid = none ∧
      (removePending pending cid).length + 1 = pending.length) := by
  refine ⟨fun h => ?_, fun cid h hf => ?_, fun cid cb h hf => ?_⟩
  · simp [JetstreamClientProxy.routeReply, h]
  · simp [JetstreamClientProxy.routeReply, h, hf]
  · exact ⟨fun v hd => by simp [JetstreamClientProxy.routeReply, h, hf, hd],
      fun hd => by simp [JetstreamClientProxy.routeReply, h, hf, hd],
      findCb_removePending_self pending cid hkeys,
      removePending_length pending cid cb hf⟩

/-- Witness for C8 at a concrete pending map and message: the matched entry is
removed exactly once. -/
theorem clientProxy_routeReply_classification_witness :
    findCb (removePending [("abc-1", 7)] "abc-1") "abc-1" = none ∧
    (removePending [("abc-1", 7)] "abc-1").length + 1 =
      ([("abc-1", 7)] : PendingMap).length := by
  have h := clientProxy_routeReply_classification (α := Nat) (fun _ => none)
    [("abc-1", 7)] ⟨some "abc-1", []⟩ (by decide)
  exact ⟨((h.2.2 "abc-1" 7 rfl (by decide)).2.2).1, ((h.2.2 "abc-1" 7 rfl (by decide)).2.2).2⟩

/-- One `nc$` subscription from a reachable caching state: it observes the one
cached connect result, leaves the state cached, and never touches the
manager cache. -/
theorem subscribeNc_spec (mkConn mkJsm : Nat → Nat) (s : CacheState)
    (hs : s.wellCached mkConn mkJsm) :
    (subscribeNc mkConn s).1 = mkConn 0 ∧
    (subscribeNc mkConn s).2.wellCached mkConn mkJsm ∧
    (subscribeNc mkConn s).2.ncCache = some (mkConn 0) ∧
    (subscribeNc mkConn s).2.jsmCache = s.jsmCache := by
  rcases hs with ⟨h1, h2, h3, h4⟩ | ⟨h1, h2, ⟨h3, h4⟩ | ⟨h3, h4⟩⟩ <;>
    simp [subscribeNc, CacheState.wellCached, h1, h2, h3, h4]

/-- One `jsm$` subscription from a reachable caching state: it observes the
manager derived from the one cached connection and leaves both caches full. -/
theorem subscribeJsm_spec (mkConn mkJsm : Nat → Nat) (s : CacheState)
    (hs : s.wellCached mkConn mkJsm) :
    (subscribeJsm mkConn mkJsm s).1 = mkJsm (mkConn 0) ∧
    (subscribeJsm mkConn mkJsm s).2.wellCached mkConn mkJsm ∧
    (subscribeJsm mkConn mkJsm s).2.ncCache = some (mkConn 0) ∧
    (subscribeJsm mkConn mkJsm s).2.jsmCache = some (mkJsm (mkConn 0)) := by
  rcases hs with ⟨h1, h2, h3, h4⟩ | ⟨h1, h2, ⟨h3, h4⟩ | ⟨h3, h4⟩⟩ <;>
    simp [subscribeJsm, subscribeNc, CacheState.wellCached, h1, h2, h3, h4]

/-- Every run of accesses preserves the caching invariant, every observed
connection is the single cached one, every observed manager is the single
derived one, and the caches are full as soon as a corresponding access
happened. -/
theorem runAccesses_invariant (mkConn mkJsm : Nat → Nat) (accesses : List CacheAccess) :
    ∀ s : CacheState, s.wellCached mkConn mkJsm →
    (runAccesses mkConn mkJsm s accesses).1.wellCached mkConn mkJsm ∧
    (∀ v, (CacheAccess.nc, v) ∈ (runAccesses mkConn mkJsm s accesses).2 → v = mkConn 0) ∧
    (∀ v, (CacheAccess.jsm, v) ∈ (runAccesses mkConn mkJsm s accesses).2 →
      v = mkJsm (mkConn 0)) ∧
    (accesses ≠ [] →
      (runAccesses mkConn mkJsm s accesses).1.ncCache = some (mkConn 0)) ∧
    (s.ncCache = some (mkConn 0) →
      (runAccesses mkConn mkJsm s accesses).1.ncCache = some (mkConn 0)) ∧
    (CacheAccess.jsm ∈ accesses →
      (runAccesses mkConn mkJsm s accesses).1.jsmCache = some (mkJsm (mkConn 0))) ∧
    (s.jsmCache = some (mkJsm (mkConn 0)) →
      (runAccesses mkConn mkJsm s accesses).1.jsmCache = some (mkJsm (mkConn 0))) := by
  induction accesses with
  | nil =>
      intro s hs
      simp only [runAccesses]
      exact ⟨hs, by simp, by simp, by simp, fun h => h, by simp, fun h => h⟩
  | cons a rest ih =>
      intro s hs
      cases a with
      | nc =>
          obtain ⟨hv, hw, hnc, hjp⟩ := subscribeNc_spec mkConn mkJsm s hs
          obtain ⟨iw, invn, invj, ine, inprop, ijm, ijprop⟩ :=
            ih (subscribeNc mkConn s).2 hw
          simp only [runAccesses]
          refine ⟨iw, ?_, ?_, fun _ => inprop hnc, fun _ => inprop hnc, ?_, ?_⟩
          · intro v hvmem
            rcases List.mem_cons.mp hvmem with heq | hmem
            · rw [Prod.mk.injEq] at heq
              exact heq.2 ▸ hv
            · exact invn v hmem
          · intro v hvmem
            rcases List.mem_cons.mp hvmem with heq | hmem
            · exact absurd heq (by simp)
            · exact invj v hmem
          · intro hmem
            rcases List.mem_cons.mp hmem with heq | hmem
            · exact absurd heq (by simp)
            · exact ijm hmem
          · intro hj
            exact ijprop (hjp.trans hj)
      | jsm =>
          obtain ⟨hv, hw, hnc, hjc⟩ := subscribeJsm_spec mkConn mkJsm s hs
          obtain ⟨iw, invn, invj, ine, inprop, ijm, ijprop⟩ :=
            ih (subscribeJsm mkConn mkJsm s).2 hw
          simp only [runAccesses]
          refine ⟨iw, ?_, ?_, fun _ => inprop hnc, fun _ => inprop hnc,
            fun _ => ijprop hjc, fun _ => ijprop hjc⟩
          · intro v hvmem
            rcases List.mem_cons.mp hvmem with heq | hmem
            · exact absurd heq (by simp)
            · exact invn v hmem
          · intro v hvmem
            rcases List.mem_cons.mp hvmem with heq | hmem
            · rw [Prod.mk.injEq] at heq
              exact heq.2 ▸ hv
            · exact invj v hmem

/-- C9: against one provider instance, any sequence of accesses to `nc$` and
`jsm$` triggers at most one connect call — exactly one as soon as any access
happens — every access observes the same cached connection, and the JetStream
manager is likewise derived once from that connection and shared. -/
theorem connectionProvider_connection_shared (mkConn mkJsm : Nat → Nat)
    (accesses : List CacheAccess) :
    ((runAccesses mkConn mkJsm CacheState.init accesses).1.connectCalls ≤ 1) ∧
    (accesses ≠ [] →
      (runAccesses mkConn mkJsm CacheState.init accesses).1.connectCalls = 1) ∧
    ((runAccesses mkConn mkJsm CacheState.init accesses).1.jsmCalls ≤ 1) ∧
    (CacheAccess.jsm ∈ accesses →
      (runAccesses mkConn mkJsm CacheState.init accesses).1.jsmCalls = 1) ∧
    (∀ v, (CacheAccess.nc, v) ∈ (runAccesses mkConn mkJsm CacheState.init accesses).2 →
      v = mkConn 0) ∧
    (∀ v, (CacheAccess.jsm, v) ∈ (runAccesses mkConn mkJsm CacheState.init accesses).2 →
      v = mkJsm (mkConn 0)) := by
  have hinit : CacheState.init.wellCached mkConn mkJsm := Or.inl ⟨rfl, rfl, rfl, rfl⟩
  obtain ⟨hw, hnc, hjsm, hne, _, hjmem, _⟩ :=
    runAccesses_invariant mkConn mkJsm accesses CacheState.init hinit
  refine ⟨?_, fun h => ?_, ?_, fun h => ?_, hnc, hjsm⟩
  · rcases hw with ⟨_, h2, _, _⟩ | ⟨_, h2, _⟩ <;> omega
  · have hsome := hne h
    rcases hw with ⟨h1, _, _, _⟩ | ⟨_, h2, _⟩
    · rw [h1] at hsome; exact absurd hsome (by simp)
    · exact h2
  · rcases hw with ⟨_, _, _, h4⟩ | ⟨_, _, ⟨_, h4⟩ | ⟨_, h4⟩⟩ <;> omega
  · have hsome := hjmem h
    rcases hw with ⟨_, _, h3, _⟩ | ⟨_, _, ⟨h3, _⟩ | ⟨_, h4⟩⟩
    · rw [h3] at hsome; exact absurd hsome (by simp)
    · rw [h3] at hsome; exact absurd hsome (by simp)
    · exact h4

/-- Appending one fresh element keeps a list duplicate-free. -/
theorem nodup_append_one {α : Type} {t : List α} {a : α} (h : t.Nodup) (ha : a ∉ t) :
    (t ++ [a]).Nodup := by
  refine h.append (by simp) ?_
  intro x hx hx2
  rw [List.mem_singleton] at hx2
  exact ha (hx2 ▸ hx)

/-- Appending two fresh distinct elements keeps a list duplicate-free. -/
theorem nodup_append_pair {α : Type} {t : List α} {a b : α} (h : t.Nodup) (ha : a ∉ t)
    (hb : b ∉ t) (hab : a ≠ b) : (t ++ [a, b]).Nodup := by
  refine h.append (by simp [hab]) ?_
  intro x hx hx2
  rcases List.mem_cons.mp hx2 with rfl | hx3
  · exact ha hx
  · rw [List.mem_singleton] at hx3
    exact hb (hx3 ▸ hx)

/-- A sublist stays a sublist when the host list grows at the end. -/
theorem sublist_grow {α : Type} {l t ex : List α} (h : l.Sublist t) :
    l.Sublist (t ++ ex) :=
  h.trans (List.sublist_append_left t ex)

/-- Extending both a sublist and its host list by the same suffix. -/
theorem sublist_extend {α : Type} {l t ex : List α} (h : l.Sublist t) :
    (l ++ ex).Sublist (t ++ ex) :=
  h.append (List.Sublist.refl ex)

/-- A member followed by a freshly appended pair forms a three-element
sublist of the grown list. -/
theorem sublist_chain_of_mem {α : Type} {t : List α} {x a b : α} (hx : x ∈ t) :
    [x, a, b].Sublist (t ++ [a, b]) := by
  have h1 : [x].Sublist t := List.singleton_sublist.mpr hx
  simpa using h1.append (List.Sublist.refl [a, b])

/-- The initial `listen` state satisfies the pipeline invariant. -/
theorem listenInv_init : ListenInv LState.init := by
  refine ⟨?_, ?_, ?_, ?_, ?_, ?_, ?_, ?_, ?_, ?_, ?_⟩
  · simp [LState.init]
  · simp [LState.init]
  · intro r h1 h2
    have h2b : r ≤ 1 := h2
    have hr1 : r = 1 := by omega
    subst hr1
    simp [LState.init]
  · intro r hr; simp [LState.init] at hr
  · intro r hr; simp [LState.init] at hr
  · intro r hr; simp [LState.init] at hr
  · intro r hr; simp [LState.init] at hr
  · intro r hr; simp [LState.init] at hr
  · intro r hr; simp [LState.init] at hr
  · intro _
    refine ⟨?_, ?_, ?_⟩ <;> simp [LState.init]
  · intro r hr
    have hr2 : 1 < r := hr
    refine ⟨?_, ?_, ?_, ?_, ?_⟩ <;> simp [LState.init] <;> omega

/-- One step of the `listen` pipeline preserves the invariant. -/
theorem listenInv_step (s : LState) (e : LEvent) (hs : ListenInv s) : ListenInv (s.step e) := by
  obtain ⟨hnd, hpos, hsa, hcc, hrc, hccc, hbc, hbd, hbl, haf, hff⟩ := hs
  cases e with
  | reconnect =>
      have hstep : s.step .reconnect =
          { aRun := s.aRun + 1, sActive := true, bRun := s.bRun,
            trace := s.trace ++ [.ensureStreams (s.aRun + 1)] } := rfl
      rw [hstep]
      refine ⟨?_, ?_, ?_, ?_, ?_, ?_, ?_, ?_, ?_, ?_, ?_⟩
      · exact nodup_append_one hnd (hff (s.aRun + 1) (by omega)).1
      · exact Nat.succ_pos s.aRun
      · intro r2 h1 h2
        have h2b : r2 ≤ s.aRun + 1 := h2
        by_cases hr2 : r2 = s.aRun + 1
        · subst hr2; simp
        · exact List.mem_append_left _ (hsa r2 h1 (by omega))
      · intro r2 hmem
        rcases List.mem_append.mp hmem with hold | hnew
        · exact sublist_grow (hcc r2 hold)
        · simp at hnew
      · intro r2 hmem
        rcases List.mem_append.mp hmem with hold | hnew
        · exact sublist_grow (hrc r2 hold)
        · simp at hnew
      · intro r2 hmem
        rcases List.mem_append.mp hmem with hold | hnew
        · exact List.mem_append_left _ (hccc r2 hold)
        · simp at hnew
      · intro r2 hb
        exact sublist_grow (hbc r2 hb)
      · intro r2 hb
        obtain ⟨h1, h2⟩ := hbd r2 hb
        constructor <;> simp [List.mem_append, h1, h2]
      · intro r2 hb
        have hle := hbl r2 hb
        dsimp only
        omega
      · intro _
        have hfr := hff (s.aRun + 1) (by omega)
        refine ⟨?_, ?_, ?_⟩
        · simp [List.mem_append, hfr.2.1]
        · simp [List.mem_append, hfr.2.2.1]
        · intro hbe
          have hle := hbl (s.aRun + 1) hbe
          omega
      · intro r2 hlt
        have hlt2 : s.aRun + 1 < r2 := hlt
        have hfr := hff r2 (by omega)
        refine ⟨?_, ?_, ?_, ?_, ?_⟩ <;>
          simp [List.mem_append, hfr.1, hfr.2.1, hfr.2.2.1, hfr.2.2.2.1, hfr.2.2.2.2] <;>
          omega
  | streamsDone r =>
      by_cases hcond : r = s.aRun ∧ s.sActive = true
      · have hstep : s.step (.streamsDone r) =
            { aRun := s.aRun, sActive := false, bRun := some r,
              trace := s.trace ++ [.streamsCompleted r, .ensureConsumers r] } := by
          simp only [LState.step, if_pos hcond]
        obtain ⟨hr, hact⟩ := hcond
        obtain ⟨hscf0, hecf0, hbne0⟩ := haf hact
        have hscf : TEntry.streamsCompleted r ∉ s.trace := by rw [hr]; exact hscf0
        have hecf : TEntry.ensureConsumers r ∉ s.trace := by rw [hr]; exact hecf0
        have hestream : TEntry.ensureStreams r ∈ s.trace := hsa r (by omega) (by omega)
        rw [hstep]
        refine ⟨?_, ?_, ?_, ?_, ?_, ?_, ?_, ?_, ?_, ?_, ?_⟩
        · exact nodup_append_pair hnd hscf hecf (by simp)
        · exact hpos
        · intro r2 h1 h2
          exact List.mem_append_left _ (hsa r2 h1 h2)
        · intro r2 hmem
          rcases List.mem_append.mp hmem with hold | hnew
          · exact sublist_grow (hcc r2 hold)
          · have hr2 : r2 = r := by simpa using hnew
            subst hr2
            exact sublist_chain_of_mem hestream
        · intro r2 hmem
          rcases List.mem_append.mp hmem with hold | hnew
          · exact sublist_grow (hrc r2 hold)
          · simp at hnew
        · intro r2 hmem
          rcases List.mem_append.mp hmem with hold | hnew
          · exact List.mem_append_left _ (hccc r2 hold)
          · simp at hnew
        · intro r2 hb
          have hr2 : r = r2 := Option.some.inj hb
          subst hr2
          exact sublist_chain_of_mem hestream
        · intro r2 hb
          have hr2 : r = r2 := Option.some.inj hb
          subst hr2
          have hccf : TEntry.consumersCompleted r ∉ s.trace := fun hmem => hecf (hccc r hmem)
          have hrdf : TEntry.ready r ∉ s.trace := fun hmem =>
            hecf ((hrc r hmem).subset (by simp))
          constructor <;> simp [List.mem_append, hccf, hrdf]
        · intro r2 hb
          have hr2 : r = r2 := Option.some.inj hb
          dsimp only
          omega
        · intro hfalse
          simp at hfalse
        · intro r2 hlt
          have hlt2 : s.aRun < r2 := hlt
          have hfr := hff r2 hlt2
          refine ⟨?_, ?_, ?_, ?_, ?_⟩ <;>
            simp [List.mem_append, hfr.1, hfr.2.1, hfr.2.2.1, hfr.2.2.2.1, hfr.2.2.2.2] <;>
            omega
      · have hstep : s.step (.streamsDone r) = s := by
          simp only [LState.step, if_neg hcond]
        rw [hstep]
        exact ⟨hnd, hpos, hsa, hcc, hrc, hccc, hbc, hbd, hbl, haf, hff⟩
  | consumersDone r =>
      by_cases hcond : s.bRun = some r
      · have hstep : s.step (.consumersDone r) =
            { aRun := s.aRun, sActive := s.sActive, bRun := none,
              trace := s.trace ++ [.consumersCompleted r, .ready r] } := by
          simp only [LState.step, if_pos hcond]
        obtain ⟨hccf, hrdf⟩ := hbd r hcond
        have hchain := hbc r hcond
        have hrle := hbl r hcond
        rw [hstep]
        refine ⟨?_, ?_, ?_, ?_, ?_, ?_, ?_, ?_, ?_, ?_, ?_⟩
        · exact nodup_append_pair hnd hccf hrdf (by simp)
        · exact hpos
        · intro r2 h1 h2
          exact List.mem_append_left _ (hsa r2 h1 h2)
        · intro r2 hmem
          rcases List.mem_append.mp hmem with hold | hnew
          · exact sublist_grow (hcc r2 hold)
          · simp at hnew
        · intro r2 hmem
          rcases List.mem_append.mp hmem with hold | hnew
          · exact sublist_grow (hrc r2 hold)
          · have hr2 : r2 = r := by simpa using hnew
            subst hr2
            exact sublist_extend hchain
        · intro r2 hmem
          rcases List.mem_append.mp hmem with hold | hnew
          · exact List.mem_append_left _ (hccc r2 hold)
          · have hr2 : r2 = r := by simpa using hnew
            subst hr2
            exact List.mem_append_left _ (hchain.subset (by simp))
        · intro r2 hb
          simp at hb
        · intro r2 hb
          simp at hb
        · intro r2 hb
          simp at hb
        · intro hact
          obtain ⟨h1, h2, _⟩ := haf hact
          refine ⟨?_, ?_, ?_⟩
          · simp [List.mem_append, h1]
          · simp [List.mem_append, h2]
          · simp
        · intro r2 hlt
          have hlt2 : s.aRun < r2 := hlt
          have hfr := hff r2 hlt2
          refine ⟨?_, ?_, ?_, ?_, ?_⟩ <;>
            simp [List.mem_append, hfr.1, hfr.2.1, hfr.2.2.1, hfr.2.2.2.1, hfr.2.2.2.2] <;>
            omega
      · have hstep : s.step (.consumersDone r) = s := by
          simp only [LState.step, if_neg hcond]
        rw [hstep]
        exact ⟨hnd, hpos, hsa, hcc, hrc, hccc, hbc, hbd, hbl, haf, hff⟩

/-- The invariant holds along any fold of pipeline steps. -/
theorem listenInv_foldl (events : List LEvent) :
    ∀ s : LState, ListenInv s → ListenInv (events.foldl LState.step s) := by
  induction events with
  | nil => intro s hs; exact hs
  | cons e rest ih => intro s hs; exact ih _ (listenInv_step s e hs)

/-- The invariant holds in every state `listen` can reach. -/
theorem listenInv_reachable (events : List LEvent) :
    ListenInv (JetstreamStrategy.listen events) :=
  listenInv_foldl events LState.init listenInv_init

/-- A stream-completion event never changes the current run number. -/
theorem step_aRun_streamsDone (s : LState) (r : Nat) :
    (s.step (.streamsDone r)).aRun = s.aRun := by
  simp only [LState.step]
  split <;> rfl

/-- A consumer-completion event never changes the current run number. -/
theorem step_aRun_consumersDone (s : LState) (r : Nat) :
    (s.step (.consumersDone r)).aRun = s.aRun := by
  simp only [LState.step]
  split <;> rfl

/-- The run number counts the reconnect events processed so far. -/
theorem listen_aRun_count (events : List LEvent) :
    ∀ s : LState, (events.foldl LState.step s).aRun = s.aRun + events.count .reconnect := by
  induction events with
  | nil => intro s; simp
  | cons e rest ih =>
      intro s
      rw [List.foldl_cons, ih]
      cases e with
      | reconnect =>
          have ha : (s.step .reconnect).aRun = s.aRun + 1 := rfl
          rw [ha]
          simp [List.count_cons]
          omega
      | streamsDone r =>
          rw [step_aRun_streamsDone]
          simp [List.count_cons]
      | consumersDone r =>
          rw [step_aRun_consumersDone]
          simp [List.count_cons]

/-- Once a run is strictly older than the current one and is not held by the
second `switchMap`, no later event can fire its readiness callback. -/
theorem ready_dead_step (s : LState) (e : LEvent) (r : Nat) (hlt : r < s.aRun)
    (hb : s.bRun ≠ some r) (hmem : TEntry.ready r ∉ s.trace) :
    r < (s.step e).aRun ∧ (s.step e).bRun ≠ some r ∧ TEntry.ready r ∉ (s.step e).trace := by
  cases e with
  | reconnect =>
      refine ⟨by dsimp only [LState.step]; omega, hb, ?_⟩
      show TEntry.ready r ∉ s.trace ++ [.ensureStreams (s.aRun + 1)]
      simp [List.mem_append, hmem]
  | streamsDone r2 =>
      by_cases hcond : r2 = s.aRun ∧ s.sActive = true
      · have hstep : s.step (.streamsDone r2) =
            { aRun := s.aRun, sActive := false, bRun := some r2,
              trace := s.trace ++ [.streamsCompleted r2, .ensureConsumers r2] } := by
          simp only [LState.step, if_pos hcond]
        rw [hstep]
        refine ⟨hlt, ?_, ?_⟩
        · intro hsome
          have : r2 = r := Option.some.inj hsome
          omega
        · show TEntry.ready r ∉ s.trace ++ [.streamsCompleted r2, .ensureConsumers r2]
          simp [List.mem_append, hmem]
      · have hstep : s.step (.streamsDone r2) = s := by
          simp only [LState.step, if_neg hcond]
        rw [hstep]
        exact ⟨hlt, hb, hmem⟩
  | consumersDone r2 =>
      by_cases hcond : s.bRun = some r2
      · have hstep : s.step (.consumersDone r2) =
            { aRun := s.aRun, sActive := s.sActive, bRun := none,
              trace := s.trace ++ [.consumersCompleted r2, .ready r2] } := by
          simp only [LState.step, if_pos hcond]
        have hne : r2 ≠ r := fun h => hb (h ▸ hcond)
        have hne2 : r ≠ r2 := fun h => hne h.symm
        rw [hstep]
        refine ⟨hlt, by simp, ?_⟩
        show TEntry.ready r ∉ s.trace ++ [.consumersCompleted r2, .ready r2]
        simp [List.mem_append, hmem, hne2]
      · have hstep : s.step (.consumersDone r2) = s := by
          simp only [LState.step, if_neg hcond]
        rw [hstep]
        exact ⟨hlt, hb, hmem⟩

/-- `ready_dead_step` iterated over any sequence of later events. -/
theorem ready_not_refired (r : Nat) (evs : List LEvent) :
    ∀ s : LState, r < s.aRun → s.bRun ≠ some r → TEntry.ready r ∉ s.trace →
    TEntry.ready r ∉ (evs.foldl LState.step s).trace := by
  induction evs with
  | nil => intro s _ _ h; exact h
  | cons e rest ih =>
      intro s hlt hb hmem
      obtain ⟨h1, h2, h3⟩ := ready_dead_step s e r hlt hb hmem
      exact ih (s.step e) h1 h2 h3

/-- C3: on the initial `listen` attach and on every reconnect notification a
provisioning run starts with stream creation for both kinds (`ensureStreams`
stands for the forkJoin over both kinds in `StreamProvider.create`, formalised
separately); within each run, consumer creation begins only once the stream
step has completed, and the readiness callback fires only after the consumer
step has also completed — the per-run trace is always ordered
stream-ensure, stream-completion, consumer-ensure, consumer-completion,
readiness callback. -/
theorem jetstreamStrategy_listen_ordering (events : List LEvent) (r : Nat) :
    ((JetstreamStrategy.listen events).aRun = 1 + events.count .reconnect) ∧
    (0 < r → r ≤ (JetstreamStrategy.listen events).aRun →
      TEntry.ensureStreams r ∈ (JetstreamStrategy.listen events).trace) ∧
    (TEntry.ensureConsumers r ∈ (JetstreamStrategy.listen events).trace →
      [TEntry.ensureStreams r, TEntry.streamsCompleted r, TEntry.ensureConsumers r].Sublist
        (JetstreamStrategy.listen events).trace) ∧
    (TEntry.ready r ∈ (JetstreamStrategy.listen events).trace →
      [TEntry.ensureStreams r, TEntry.streamsCompleted r, TEntry.ensureConsumers r,
        TEntry.consumersCompleted r, TEntry.ready r].Sublist
        (JetstreamStrategy.listen events).trace) := by
  obtain inv := listenInv_reachable events
  refine ⟨?_, inv.streamsAll r, inv.consChain r, inv.readyChain r⟩
  rw [JetstreamStrategy.listen, listen_aRun_count]
  have h1 : LState.init.aRun = 1 := rfl
  omega

/-- C4 (amended): within one `listen` call the readiness callback fires at
most once per provisioning run (so once per completed run — initial or
reconnect-triggered — rather than at most once overall), and a run that is
superseded by a reconnect while its stream step is still in flight is
cancelled and can never fire the callback. (A run superseded after its stream
step completed can still fire; see the counterexample.) -/
theorem jetstreamStrategy_listen_callback_amended (evs1 evs2 : List LEvent) (r : Nat) :
    (List.count (TEntry.ready r) (JetstreamStrategy.listen evs1).trace ≤ 1) ∧
    ((JetstreamStrategy.listen evs1).aRun = r →
      (JetstreamStrategy.listen evs1).sActive = true →
      TEntry.ready r ∉
        (JetstreamStrategy.listen (evs1 ++ LEvent.reconnect :: evs2)).trace) := by
  obtain inv := listenInv_reachable evs1
  constructor
  · exact List.nodup_iff_count_le_one.mp inv.nodup _
  · intro hr hact
    obtain ⟨hscf, hecf, hbne⟩ := inv.activeFresh hact
    rw [hr] at hecf hbne
    have hrdf : TEntry.ready r ∉ (JetstreamStrategy.listen evs1).trace := fun hmem =>
      hecf ((inv.readyChain r hmem).subset (by simp))
    have hpost1 : r < (LState.step (JetstreamStrategy.listen evs1) .reconnect).aRun := by
      have heq : (LState.step (JetstreamStrategy.listen evs1) .reconnect).aRun =
          (JetstreamStrategy.listen evs1).aRun + 1 := rfl
      omega
    have hpost2 : (LState.step (JetstreamStrategy.listen evs1) .reconnect).bRun ≠ some r :=
      hbne
    have hpost3 :
        TEntry.ready r ∉ (LState.step (JetstreamStrategy.listen evs1) .reconnect).trace := by
      show TEntry.ready r ∉ (JetstreamStrategy.listen evs1).trace ++
        [.ensureStreams ((JetstreamStrategy.listen evs1).aRun + 1)]
      simp [List.mem_append, hrdf]
    rw [JetstreamStrategy.listen, List.foldl_append, List.foldl_cons]
    exact ready_not_refired r evs2 _ hpost1 hpost2 hpost3

/-- C4 (counterexample): with a single `listen` call, the event sequence
stream-completion, reconnect, consumer-completion makes run 1 — superseded by
the reconnect before completing — still fire the readiness callback, because
the reconnect only replaces the stream-provisioning inner observable and the
in-flight consumer provisioning of run 1 keeps running; and the sequence where
two runs complete fires the callback twice within one `listen` call. -/
theorem jetstreamStrategy_listen_counterexample :
    (TEntry.ready 1 ∈ (JetstreamStrategy.listen
      [.streamsDone 1, .reconnect, .consumersDone 1]).trace) ∧
    ((JetstreamStrategy.listen
        [.streamsDone 1, .consumersDone 1, .reconnect, .streamsDone 2, .consumersDone 2]
      ).trace.countP (fun e => match e with | .ready _ => true | _ => false) = 2) := by
  decide

end NestjsJetstream
